import Mathlib

/-
  Verification of the chess-game session engine (src/main.py, src/database.py)
  against its natural-language specification.

  The rule engine (the third-party python-chess library, imported as
  `import chess` in main.py) is not part of this repository; following the
  specification it is treated as an opaque capability and modelled as a
  structure of functions (`ChessLib`) matching the calls main.py makes on it:
  Move.from_uci, Board.is_legal, Board.push, Board.san, Board.fen,
  Board.is_check, Board.is_checkmate, Board.is_stalemate,
  Board.is_insufficient_material, and the Board() constructor (the standard
  starting position).

  Python dictionaries are modelled as association lists with unique keys
  (assignment replaces an existing binding), SQLAlchemy tables as lists of
  records in insertion order, and the staged `db.add` / `db.commit` pair as a
  write applied to the durable lists at commit time (a failed commit persists
  nothing).  Fresh identifier generation (uuid4 game ids, token_hex session
  ids) is modelled by a presence check on creation mirroring the primary-key
  uniqueness these generators guarantee.
-/

/-- Rule Engine Adapter interface: the operations main.py invokes on the
    external python-chess library, abstracted over the position and move
    representations as the specification prescribes. -/
structure ChessLib (Pos : Type) (Mv : Type) where
  init : Pos
  fromUci : String → Option Mv
  isLegal : Pos → Mv → Bool
  push : Pos → Mv → Pos
  san : Pos → Mv → String
  fen : Pos → String
  isCheck : Pos → Bool
  isCheckmate : Pos → Bool
  isStalemate : Pos → Bool
  isInsufficientMaterial : Pos → Bool

/-- User row (database.py, class User); only the fields the verified
    operations read are kept. -/
structure User where
  id : String
  username : String
  deriving DecidableEq

/-- Game row (database.py, class Game). -/
structure Game where
  id : String
  creator_id : String
  joiner_id : Option String
  creator_color : String
  status : String
  result : Option String
  winner_id : Option String
  completed_at : Option Nat
  deriving DecidableEq

/-- GamePlayer row (database.py, class GamePlayer). -/
structure GamePlayer where
  game_id : String
  user_id : String
  color : String
  deriving DecidableEq

/-- GameMove row (database.py, class GameMove). -/
structure GameMove where
  game_id : String
  player_id : String
  move_number : Nat
  move_uci : String
  move_san : String
  fen_after : String
  is_check : Bool
  is_checkmate : Bool
  is_stalemate : Bool
  is_draw : Bool
  deriving DecidableEq

/-- UserSession row (database.py, class UserSession); timestamps are
    abstract Nat instants. -/
structure UserSession where
  id : String
  user_id : String
  created_at : Nat
  expires_at : Nat
  is_active : Bool
  deriving DecidableEq

/-- Outbound websocket traffic produced while handling one inbound message:
    an error payload of shape type "error" / message sent to the submitting
    socket (main.py lines 433-437), or the game-state payload passed to
    GameManager.broadcast_to_game (main.py lines 426-432). -/
inductive WsEvent where
  | errorMsg (ws : Nat) (message : String)
  | moveBroadcast (game_id : String) (fen : String) (turn : String)
      (move_history : List String) (game_status : String)
  deriving DecidableEq

/-- Combined durable and in-memory state touched by the game endpoints:
    the database tables of database.py plus GameManager.connections,
    GameManager.game_boards and GameManager.game_turns from main.py. -/
structure ServerState (Pos : Type) where
  db_games : List Game
  db_players : List GamePlayer
  db_moves : List GameMove
  db_users : List User
  game_boards : List (String × Pos)
  game_turns : List (String × String)
  connections : List (String × List Nat)
  deriving DecidableEq

/-- Python dict assignment d[k] = v on an association list: replace the
    existing binding or append a new one. -/
def setAssoc {β : Type} : List (String × β) → String → β → List (String × β)
  | [], k, v => [(k, v)]
  | (k', v') :: rest, k, v =>
      if k' == k then (k, v) :: rest else (k', v') :: setAssoc rest k v

/-- GameManager.get_game_board (main.py lines 98-101): on a missing id a
    fresh starting board is stored under the id and returned. -/
def get_game_board {Pos Mv : Type} (lib : ChessLib Pos Mv) (st : ServerState Pos)
    (game_id : String) : Pos × ServerState Pos :=
  match st.game_boards.lookup game_id with
  | some b => (b, st)
  | none => (lib.init, { st with game_boards := setAssoc st.game_boards game_id lib.init })

/-- GameManager.get_game_turn (main.py lines 103-104): dict .get with
    default "white". -/
def get_game_turn {Pos : Type} (st : ServerState Pos) (game_id : String) : String :=
  (st.game_turns.lookup game_id).getD "white"

/-- Resolution of current_user in websocket_endpoint (main.py lines 354-360):
    the first player of the game whose user row exists — not the user behind
    the submitting connection, which the endpoint never learns. -/
def firstPlayerUser {Pos : Type} (st : ServerState Pos) (g : Game) : Option User :=
  (st.db_players.filter (fun p => p.game_id == g.id)).findSome?
    (fun p => st.db_users.find? (fun u => u.id == p.user_id))

/-- Board a move would be validated against: the cached board for the id,
    or a fresh starting board when the id is uncached. -/
def boardVal {Pos Mv : Type} (lib : ChessLib Pos Mv) (st : ServerState Pos)
    (game_id : String) : Pos :=
  (st.game_boards.lookup game_id).getD lib.init

/-- Handling of one inbound message of type "move" in websocket_endpoint
    (main.py lines 370-437).  `ws` is the submitting socket, `submitter` the
    authenticated user behind it (never consulted by the source), `commitOk`
    whether the durable db.commit succeeds, `now` the current wall-clock
    instant.  Returns the new state and the outbound events.  The source
    stages the GameMove insert with db.add before mutating the board; the
    staged row and the ORM field updates on the game row become durable only
    at db.commit, so the model applies them to the durable lists at the
    commit point, and a failed commit (the StoreUnavailable case) persists
    neither while the already-performed in-memory board push and turn flip
    remain.  A missing game_turns entry reproduces the KeyError raised by
    the direct dict access on main.py line 399. -/
def handle_move {Pos Mv : Type} (lib : ChessLib Pos Mv) (commitOk : Bool) (now : Nat)
    (st : ServerState Pos) (game_id : String) (ws : Nat) (submitter : String)
    (uciStr : String) : ServerState Pos × List WsEvent :=
  match st.db_games.find? (fun g => g.id == game_id) with
  | none => (st, [])
  | some game =>
    let current_user := firstPlayerUser st game
    match lib.fromUci uciStr with
    | none => (st, [WsEvent.errorMsg ws "invalid uci"])
    | some mv =>
      let board := (get_game_board lib st game_id).1
      let st1 := (get_game_board lib st game_id).2
      if lib.isLegal board mv then
        let move_number := (st1.db_moves.filter (fun m => m.game_id == game_id)).length + 1
        let move_san := lib.san board mv
        let game_move : GameMove :=
          { game_id := game_id
            player_id := match current_user with | some u => u.id | none => ""
            move_number := move_number
            move_uci := uciStr
            move_san := move_san
            fen_after := lib.fen board
            is_check := lib.isCheck board
            is_checkmate := lib.isCheckmate board
            is_stalemate := lib.isStalemate board
            is_draw := lib.isInsufficientMaterial board }
        let newBoard := lib.push board mv
        let st2 := { st1 with game_boards := setAssoc st1.game_boards game_id newBoard }
        match st2.game_turns.lookup game_id with
        | none => (st2, [WsEvent.errorMsg ws "KeyError"])
        | some t =>
          let newTurn := if t == "white" then "black" else "white"
          let st3 := { st2 with game_turns := setAssoc st2.game_turns game_id newTurn }
          let game_status :=
            if lib.isCheckmate newBoard then "checkmate"
            else if lib.isStalemate newBoard then "stalemate"
            else if lib.isInsufficientMaterial newBoard then "draw"
            else "ongoing"
          let game' :=
            if lib.isCheckmate newBoard then
              { game with status := "completed", result := some "checkmate",
                          winner_id := current_user.map (fun u => u.id),
                          completed_at := some now }
            else if lib.isStalemate newBoard then
              { game with status := "completed", result := some "stalemate",
                          completed_at := some now }
            else if lib.isInsufficientMaterial newBoard then
              { game with status := "completed", result := some "draw",
                          completed_at := some now }
            else game
          if commitOk then
            let st4 := { st3 with
              db_moves := st3.db_moves ++ [game_move],
              db_games := st3.db_games.map
                (fun g => if g.id == game.id then game' else g) }
            let moves := (st4.db_moves.filter (fun m => m.game_id == game_id)).map
              (fun m => m.move_san)
            (st4, [WsEvent.moveBroadcast game_id (lib.fen newBoard) newTurn moves game_status])
          else
            (st3, [WsEvent.errorMsg ws "StoreUnavailable"])
      else
        (st1, [])

/-- True when the handler accepted the move, i.e. produced the game-state
    broadcast of main.py lines 426-432. -/
def moveAccepted {Pos : Type} (r : ServerState Pos × List WsEvent) : Bool :=
  r.2.any (fun e => match e with
    | WsEvent.moveBroadcast _ _ _ _ _ => true
    | _ => false)

/-- GameManager.create_game (main.py lines 38-65).  The uuid4-generated game
    id is passed in; its freshness (primary-key uniqueness) is modelled by
    the leading presence check. -/
def create_game {Pos Mv : Type} (lib : ChessLib Pos Mv) (st : ServerState Pos)
    (game_id creator_id creator_color : String) : ServerState Pos :=
  if (st.db_games.find? (fun g => g.id == game_id)).isSome then st
  else
    { st with
      db_games := st.db_games ++
        [{ id := game_id, creator_id := creator_id, joiner_id := none,
           creator_color := creator_color, status := "waiting", result := none,
           winner_id := none, completed_at := none }],
      db_players := st.db_players ++
        [{ game_id := game_id, user_id := creator_id, color := creator_color }],
      connections := setAssoc st.connections game_id [],
      game_boards := setAssoc st.game_boards game_id lib.init,
      game_turns := setAssoc st.game_turns game_id "white" }

/-- GameManager.join_game (main.py lines 67-93). -/
def join_game {Pos : Type} (st : ServerState Pos) (game_id joiner_id : String) :
    ServerState Pos × Bool :=
  match st.db_games.find? (fun g => g.id == game_id) with
  | none => (st, false)
  | some game =>
    if 2 ≤ (st.db_players.filter (fun p => p.game_id == game_id)).length then (st, false)
    else
      let joiner_color := if game.creator_color == "white" then "black" else "white"
      ({ st with
         db_players := st.db_players ++
           [{ game_id := game_id, user_id := joiner_id, color := joiner_color }],
         db_games := st.db_games.map (fun g =>
           if g.id == game_id then
             { g with status := "active", joiner_id := some joiner_id }
           else g) },
       true)

/-- Join behaviour of the game_page route (main.py lines 296-315): an
    authenticated visitor who is not yet a player of an existing game is
    joined via GameManager.join_game; a failed join (game full) raises and
    leaves the state as join_game returned it. -/
def game_page_visit {Pos : Type} (st : ServerState Pos) (game_id user_id : String) :
    ServerState Pos :=
  match st.db_games.find? (fun g => g.id == game_id) with
  | none => st
  | some _ =>
    if (st.db_players.find?
        (fun p => p.game_id == game_id && p.user_id == user_id)).isSome then st
    else (join_game st game_id user_id).1

/-- Registry operations reachable from the HTTP routes: game creation
    (create-game route) and a visit to a game page (game_page route). -/
inductive RegOp where
  | createOp (game_id creator_id creator_color : String)
  | visitOp (game_id user_id : String)

/-- One registry operation applied to the server state. -/
def stepOp {Pos Mv : Type} (lib : ChessLib Pos Mv) (st : ServerState Pos) :
    RegOp → ServerState Pos
  | RegOp.createOp gid cid col => create_game lib st gid cid col
  | RegOp.visitOp gid uid => game_page_visit st gid uid

/-- Empty server state: fresh process, empty database. -/
def initState (Pos : Type) : ServerState Pos :=
  { db_games := [], db_players := [], db_moves := [], db_users := [],
    game_boards := [], game_turns := [], connections := [] }

/-- State after a sequence of registry operations from the empty state. -/
def runOps {Pos Mv : Type} (lib : ChessLib Pos Mv) (ops : List RegOp) : ServerState Pos :=
  ops.foldl (stepOp lib) (initState Pos)

/-- Player rows of one game, in insertion order (the db.query(GamePlayer)
    filter on game_id). -/
def playersOf {Pos : Type} (st : ServerState Pos) (gid : String) : List GamePlayer :=
  st.db_players.filter (fun p => p.game_id == gid)

/-- Color the joiner is assigned opposite the creator (main.py line 79). -/
def oppColor (c : String) : String :=
  if c == "white" then "black" else "white"

/-- Session-bridge state: the user_sessions table plus the in-memory
    user_sessions dict of main.py line 28. -/
structure SessState where
  db_sessions : List UserSession
  cache : List (String × String)
  deriving DecidableEq

/-- Session lifetime, timedelta(days=7) of main.py line 155, in seconds. -/
def sessionLifetime : Nat := 7 * 24 * 60 * 60

/-- create_session (main.py lines 153-168).  The token_hex(32) session id is
    passed in; its freshness is modelled by the leading presence check. -/
def create_session (st : SessState) (user_id sid : String) (now : Nat) : SessState :=
  if (st.db_sessions.find? (fun s => s.id == sid)).isSome then st
  else
    { db_sessions := st.db_sessions ++
        [{ id := sid, user_id := user_id, created_at := now,
           expires_at := now + sessionLifetime, is_active := true }],
      cache := setAssoc st.cache sid user_id }

/-- WHERE clause of the durable lookup in get_user_from_session
    (main.py lines 176-180): matching id, active, unexpired. -/
def sessionQueryValid (s : UserSession) (sid : String) (now : Nat) : Bool :=
  s.id == sid && s.is_active && decide (now < s.expires_at)

/-- get_user_from_session (main.py lines 170-185): memory first, then the
    durable store with cache repopulation on a hit. -/
def get_user_from_session (st : SessState) (sid : String) (now : Nat) :
    Option String × SessState :=
  match st.cache.lookup sid with
  | some uid => (some uid, st)
  | none =>
    match st.db_sessions.find? (fun s => sessionQueryValid s sid now) with
    | some s => (some s.user_id, { st with cache := setAssoc st.cache sid s.user_id })
    | none => (none, st)

/-- First durable row with the given session id is marked inactive
    (main.py lines 189-192, a query .first() followed by a field update). -/
def deactivateFirst : List UserSession → String → List UserSession
  | [], _ => []
  | s :: rest, sid =>
      if s.id == sid then { s with is_active := false } :: rest
      else s :: deactivateFirst rest sid

/-- remove_session (main.py lines 187-196). -/
def remove_session (st : SessState) (sid : String) : SessState :=
  { db_sessions := deactivateFirst st.db_sessions sid,
    cache := st.cache.filter (fun e => !(e.1 == sid)) }

/-- Session-bridge operations: issue, resolve and revoke. -/
inductive SessOp where
  | issueOp (sid user_id : String) (now : Nat)
  | resolveOp (sid : String) (now : Nat)
  | revokeOp (sid : String)

/-- One session operation applied to the session state. -/
def sessStep (st : SessState) : SessOp → SessState
  | SessOp.issueOp sid uid now => create_session st uid sid now
  | SessOp.resolveOp sid now => (get_user_from_session st sid now).2
  | SessOp.revokeOp sid => remove_session st sid

/-- Session state after a sequence of operations from the empty state. -/
def runSessOps (ops : List SessOp) : SessState :=
  ops.foldl sessStep { db_sessions := [], cache := [] }

/-- Durable validity of a token at an instant: some row passes the WHERE
    clause of the store lookup. -/
def durablyValid (st : SessState) (sid : String) (now : Nat) : Bool :=
  st.db_sessions.any (fun s => sessionQueryValid s sid now)

/-- Delivery loop of GameManager.broadcast_to_game (main.py lines 115-121):
    each send is wrapped in try/except pass, so a dead connection is skipped
    and the loop continues; nothing is removed.  `alive c = true` means
    send_text to connection c succeeds.  Returns the connections actually
    delivered to, in loop order. -/
def deliverAll (alive : Nat → Bool) : List Nat → List Nat
  | [] => []
  | c :: rest =>
      if alive c then c :: deliverAll alive rest else deliverAll alive rest

/-- GameManager.broadcast_to_game (main.py lines 115-121): delivers to the
    game's connection list and leaves the state untouched. -/
def broadcast_to_game {Pos : Type} (alive : Nat → Bool) (st : ServerState Pos)
    (game_id : String) : List Nat × ServerState Pos :=
  match st.connections.lookup game_id with
  | none => ([], st)
  | some conns => (deliverAll alive conns, st)

/-- Delivery loop of broadcast_online_users (main.py lines 212-226):
    iterates over a copy of presence_connections; a failing send removes the
    connection from the live list (list.remove, first occurrence).  Returns
    the delivered connections and the final live list. -/
def presence_sweep (alive : Nat → Bool) : List Nat → List Nat → List Nat × List Nat
  | [], cur => ([], cur)
  | c :: rest, cur =>
      if alive c then
        let r := presence_sweep alive rest cur
        (c :: r.1, r.2)
      else
        presence_sweep alive rest (cur.erase c)

/-- broadcast_online_users (main.py lines 212-226) restricted to its
    delivery effect on the presence connection list. -/
def broadcast_online_users (alive : Nat → Bool) (conns : List Nat) :
    List Nat × List Nat :=
  presence_sweep alive conns conns

/-- Toy positions instantiating the abstract rule engine for concrete
    scenario evaluation.  Realizable in actual chess: start is the standard
    starting position; afterE4 the position after 1.e4; preMate the position
    after 1.f3 e5 2.g4 with Black to move (2...Qh4 is then checkmate, the
    standard fools mate); mated that checkmate position; preDraw a position
    where the side to move captures the last pawn leaving bare kings;
    drawPos the bare-kings position so produced (insufficient material, yet
    king moves remain legal); drawPos2 the position after one further king
    move. -/
inductive ToyPos where
  | start | afterE4 | preMate | mated | preDraw | drawPos | drawPos2
  deriving DecidableEq

/-- UCI strings the toy engine can parse. -/
def toyUciMoves : List String := ["e2e4", "e2e5", "d8h4", "c6b7", "a1a2"]

/-- Toy legality table. -/
def toyLegal : ToyPos → String → Bool
  | ToyPos.start, "e2e4" => true
  | ToyPos.preMate, "d8h4" => true
  | ToyPos.preDraw, "c6b7" => true
  | ToyPos.drawPos, "a1a2" => true
  | _, _ => false

/-- Toy move application table. -/
def toyPush : ToyPos → String → ToyPos
  | ToyPos.start, "e2e4" => ToyPos.afterE4
  | ToyPos.preMate, "d8h4" => ToyPos.mated
  | ToyPos.preDraw, "c6b7" => ToyPos.drawPos
  | ToyPos.drawPos, "a1a2" => ToyPos.drawPos2
  | p, _ => p

/-- Toy FEN rendering: a distinct string per position. -/
def toyFen : ToyPos → String
  | ToyPos.start => "fenStart"
  | ToyPos.afterE4 => "fenAfterE4"
  | ToyPos.preMate => "fenPreMate"
  | ToyPos.mated => "fenMated"
  | ToyPos.preDraw => "fenPreDraw"
  | ToyPos.drawPos => "fenDrawPos"
  | ToyPos.drawPos2 => "fenDrawPos2"

/-- Concrete rule-engine instance over the toy positions. -/
def toyLib : ChessLib ToyPos String where
  init := ToyPos.start
  fromUci := fun s => if toyUciMoves.contains s then some s else none
  isLegal := toyLegal
  push := toyPush
  san := fun _ m => m
  fen := toyFen
  isCheck := fun p => p == ToyPos.mated
  isCheckmate := fun p => p == ToyPos.mated
  isStalemate := fun _ => false
  isInsufficientMaterial := fun p => p == ToyPos.drawPos || p == ToyPos.drawPos2

/-- Active game between alice (white, creator) and bob (black, joiner) at
    the starting position, white to move. -/
def gameA : Game :=
  { id := "g1", creator_id := "alice", joiner_id := some "bob",
    creator_color := "white", status := "active", result := none,
    winner_id := none, completed_at := none }

/-- Server state holding gameA. -/
def stA : ServerState ToyPos :=
  { db_games := [gameA]
    db_players := [{ game_id := "g1", user_id := "alice", color := "white" },
                   { game_id := "g1", user_id := "bob", color := "black" }]
    db_moves := []
    db_users := [{ id := "alice", username := "alice" },
                 { id := "bob", username := "bob" }]
    game_boards := [("g1", ToyPos.start)]
    game_turns := [("g1", "white")]
    connections := [("g1", [0, 1])] }

/-- Active game g2 one move before a checkmate by black. -/
def gameM : Game :=
  { id := "g2", creator_id := "alice", joiner_id := some "bob",
    creator_color := "white", status := "active", result := none,
    winner_id := none, completed_at := none }

/-- Server state holding gameM at the preMate position, black to move. -/
def stM : ServerState ToyPos :=
  { db_games := [gameM]
    db_players := [{ game_id := "g2", user_id := "alice", color := "white" },
                   { game_id := "g2", user_id := "bob", color := "black" }]
    db_moves := []
    db_users := [{ id := "alice", username := "alice" },
                 { id := "bob", username := "bob" }]
    game_boards := [("g2", ToyPos.preMate)]
    game_turns := [("g2", "black")]
    connections := [("g2", [0, 1])] }

/-- Active game g3 one capture away from an insufficient-material draw. -/
def gameD : Game :=
  { id := "g3", creator_id := "alice", joiner_id := some "bob",
    creator_color := "white", status := "active", result := none,
    winner_id := none, completed_at := none }

/-- Server state holding gameD at the preDraw position, white to move. -/
def stD : ServerState ToyPos :=
  { db_games := [gameD]
    db_players := [{ game_id := "g3", user_id := "alice", color := "white" },
                   { game_id := "g3", user_id := "bob", color := "black" }]
    db_moves := []
    db_users := [{ id := "alice", username := "alice" },
                 { id := "bob", username := "bob" }]
    game_boards := [("g3", ToyPos.preDraw)]
    game_turns := [("g3", "white")]
    connections := [("g3", [0, 1])] }

/-- State of g3 after the capture move that completes it as an
    insufficient-material draw. -/
def stD1 : ServerState ToyPos :=
  (handle_move toyLib true 50 stD "g3" 5 "alice" "c6b7").1

/-- Game row of g3 after its draw completion. -/
def gameD1 : Game :=
  { gameD with status := "completed", result := some "draw", completed_at := some 50 }

/-- Color-validity of a registry operation: game creation passes one of the
    two chess colors (the domain database.py documents for creator_color). -/
def validColorOp : RegOp → Prop
  | RegOp.createOp _ _ col => col = "white" ∨ col = "black"
  | RegOp.visitOp _ _ => True

/-- Registry invariant maintained by the exposed create/visit operations. -/
def RegInv {Pos : Type} (st : ServerState Pos) : Prop :=
  (st.db_games.map (fun g => g.id)).Nodup ∧
  (∀ p ∈ st.db_players, ∃ g ∈ st.db_games, g.id = p.game_id) ∧
  (∀ g ∈ st.db_games,
    (g.creator_color = "white" ∨ g.creator_color = "black") ∧
    (playersOf st g.id =
        [{ game_id := g.id, user_id := g.creator_id, color := g.creator_color }] ∨
     ∃ j, j ≠ g.creator_id ∧
       playersOf st g.id =
         [{ game_id := g.id, user_id := g.creator_id, color := g.creator_color },
          { game_id := g.id, user_id := j, color := oppColor g.creator_color }]))

/-- Session-bridge invariant: durable session ids are unique and every cache
    entry mirrors a durable row with the same token and user. -/
def SessInv (st : SessState) : Prop :=
  (st.db_sessions.map (fun s => s.id)).Nodup ∧
  ∀ e ∈ st.cache, ∃ s ∈ st.db_sessions, s.id = e.1 ∧ s.user_id = e.2

/-- Concrete registry run: alice creates g1 as white, bob visits and joins. -/
def c6Ops : List RegOp :=
  [RegOp.createOp "g1" "alice" "white", RegOp.visitOp "g1" "bob"]

/-- Dict assignment makes the assigned key resolve to the assigned value. -/
theorem lookup_setAssoc_self {β : Type} (l : List (String × β)) (k : String) (v : β) :
    (setAssoc l k v).lookup k = some v := by
  induction l with
  | nil => simp [setAssoc, List.lookup]
  | cons hd tl ih =>
    obtain ⟨k', v'⟩ := hd
    by_cases h : k' == k
    · simp [setAssoc, h, List.lookup]
    · have hne : (k == k') = false := by
        apply beq_eq_false_iff_ne.mpr
        intro hk
        exact h (by simp [hk])
      simp [setAssoc, h, List.lookup, hne, ih]

/-- The board the handler validates against is the cached board or a fresh
    starting board. -/
theorem get_game_board_fst {Pos Mv : Type} (lib : ChessLib Pos Mv)
    (st : ServerState Pos) (gid : String) :
    (get_game_board lib st gid).1 = boardVal lib st gid := by
  unfold get_game_board boardVal
  cases st.game_boards.lookup gid <;> simp

/-- get_game_board only touches the board map. -/
theorem get_game_board_snd {Pos Mv : Type} (lib : ChessLib Pos Mv)
    (st : ServerState Pos) (gid : String) :
    (get_game_board lib st gid).2.db_games = st.db_games ∧
    (get_game_board lib st gid).2.db_players = st.db_players ∧
    (get_game_board lib st gid).2.db_moves = st.db_moves ∧
    (get_game_board lib st gid).2.db_users = st.db_users ∧
    (get_game_board lib st gid).2.game_turns = st.game_turns ∧
    (get_game_board lib st gid).2.connections = st.connections := by
  unfold get_game_board
  cases st.game_boards.lookup gid <;> simp

/-- A cached board is returned unchanged and the state is untouched. -/
theorem get_game_board_cached {Pos Mv : Type} (lib : ChessLib Pos Mv)
    (st : ServerState Pos) (gid : String) (b : Pos)
    (h : st.game_boards.lookup gid = some b) :
    get_game_board lib st gid = (b, st) := by
  unfold get_game_board
  rw [h]

/-- C10: for a game id absent from the in-memory maps, reading the board
    returns a freshly created standard starting position, which is also
    cached under that id, and reading the turn returns white; both reads are
    total functions and never report the game as unknown. -/
theorem C10_main {Pos Mv : Type} (lib : ChessLib Pos Mv) (st : ServerState Pos)
    (gid : String) (hb : st.game_boards.lookup gid = none)
    (ht : st.game_turns.lookup gid = none) :
    (get_game_board lib st gid).1 = lib.init ∧
    (get_game_board lib st gid).2.game_boards.lookup gid = some lib.init ∧
    get_game_turn st gid = "white" := by
  unfold get_game_board get_game_turn
  rw [hb, ht]
  simp [lookup_setAssoc_self]

/-- Closed instance of C10_main on the empty post-restart state. -/
theorem C10_witness :
    ((initState ToyPos).game_boards.lookup "g9" = none ∧
     (initState ToyPos).game_turns.lookup "g9" = none) ∧
    ((get_game_board toyLib (initState ToyPos) "g9").1 = toyLib.init ∧
     (get_game_board toyLib (initState ToyPos) "g9").2.game_boards.lookup "g9" =
       some toyLib.init ∧
     get_game_turn (initState ToyPos) "g9" = "white") :=
  ⟨⟨by decide, by decide⟩,
   C10_main toyLib (initState ToyPos) "g9" (by decide) (by decide)⟩

/-- C1 refutation: on the active game g1 the non-participant eve submits
    e2e4 and the move is accepted (recorded and broadcast) with no error
    event, although eve occupies no player slot at all. -/
theorem C1_counterexample :
    gameA.status = "active" ∧
    moveAccepted (handle_move toyLib true 100 stA "g1" 5 "eve" "e2e4") = true ∧
    (handle_move toyLib true 100 stA "g1" 5 "eve" "e2e4").1.db_moves.length = 1 ∧
    stA.db_players.all (fun p => p.user_id != "eve") = true ∧
    (handle_move toyLib true 100 stA "g1" 5 "eve" "e2e4").2.all
      (fun e => match e with
        | WsEvent.errorMsg _ _ => false
        | _ => true) = true := by
  decide

/-- C3 refutation: with the durable commit failing, the move record is not
    persisted, yet the in-memory board has advanced and the turn flipped. -/
theorem C3_counterexample :
    (handle_move toyLib false 100 stA "g1" 5 "alice" "e2e4").1.db_moves = [] ∧
    (handle_move toyLib false 100 stA "g1" 5 "alice" "e2e4").1.game_boards.lookup "g1" =
      some ToyPos.afterE4 ∧
    stA.game_boards.lookup "g1" = some ToyPos.start ∧
    ToyPos.afterE4 ≠ ToyPos.start ∧
    (handle_move toyLib false 100 stA "g1" 5 "alice" "e2e4").1.game_turns.lookup "g1" =
      some "black" ∧
    stA.game_turns.lookup "g1" = some "white" := by
  decide

/-- C4 evaluation at the failing input: the persisted record of the accepted
    move e2e4 from the starting position carries the fen of the position
    before the move, and a mating move is recorded with is_checkmate false
    although the resulting position is checkmate. -/
theorem C4_evaluated :
    (handle_move toyLib true 100 stA "g1" 5 "alice" "e2e4").1.db_moves.map
      (fun m => m.fen_after) = ["fenStart"] ∧
    toyLib.fen (toyLib.push ToyPos.start "e2e4") = "fenAfterE4" ∧
    ("fenStart" : String) ≠ "fenAfterE4" ∧
    (handle_move toyLib true 100 stM "g2" 5 "bob" "d8h4").1.db_moves.map
      (fun m => m.is_checkmate) = [false] ∧
    toyLib.isCheckmate (toyLib.push ToyPos.preMate "d8h4") = true := by
  decide

/-- C5 refutation: in g2 it is black (bob) to move and bob delivers mate,
    yet the persisted winner is alice, the first player of the game's
    player list, not the mover. -/
theorem C5_counterexample :
    ((handle_move toyLib true 100 stM "g2" 5 "bob" "d8h4").1.db_games.find?
      (fun g => g.id == "g2")).map (fun g => (g.status, g.result, g.winner_id)) =
      some ("completed", some "checkmate", some "alice") ∧
    get_game_turn stM "g2" = "black" ∧
    (stM.db_players.find? (fun p => p.game_id == "g2" && p.color == "black")).map
      (fun p => p.user_id) = some "bob" ∧
    ("alice" : String) ≠ "bob" := by
  decide

/-- C7 refutation: e2e5 parses but is illegal in the starting position; the
    handler emits no error event at all and leaves the state unchanged. -/
theorem C7_counterexample :
    toyLib.fromUci "e2e5" = some "e2e5" ∧
    toyLib.isLegal ToyPos.start "e2e5" = false ∧
    handle_move toyLib true 100 stA "g1" 5 "alice" "e2e5" = (stA, []) := by
  decide

/-- C8 refutation: connection 0 of g1 is dead; the broadcast still reaches
    connection 1 but connection 0 is not removed from the game's
    subscription set. -/
theorem C8_counterexample :
    (fun c => c != 0) 0 = false ∧
    (broadcast_to_game (fun c => c != 0) stA "g1").1 = [1] ∧
    (broadcast_to_game (fun c => c != 0) stA "g1").2.connections.lookup "g1" =
      some [0, 1] ∧
    ([0, 1] : List Nat).contains 0 = true := by
  decide

/-- C9 refutation: a token issued at instant 0 is resolved one second after
    its expiry; the stale cache entry still yields the identity although no
    durable row is currently valid. -/
theorem C9_counterexample :
    (get_user_from_session (runSessOps [SessOp.issueOp "tok" "u1" 0]) "tok"
      (sessionLifetime + 1)).1 = some "u1" ∧
    durablyValid (runSessOps [SessOp.issueOp "tok" "u1" 0]) "tok"
      (sessionLifetime + 1) = false := by
  decide

/-- C2 refutation: the capture c6b7 completes g3 as an insufficient-material
    draw; the next submission a1a2 on the now Completed game is nevertheless
    accepted, mutates the board and the move log, and triggers a broadcast,
    with no InvalidState error. -/
theorem C2_counterexample :
    (stD1.db_games.find? (fun g => g.id == "g3")).map (fun g => g.status) =
      some "completed" ∧
    (stD1.db_games.find? (fun g => g.id == "g3")).map (fun g => g.result) =
      some (some "draw") ∧
    moveAccepted (handle_move toyLib true 60 stD1 "g3" 5 "bob" "a1a2") = true ∧
    (handle_move toyLib true 60 stD1 "g3" 5 "bob" "a1a2").1.game_boards.lookup "g3" =
      some ToyPos.drawPos2 ∧
    (handle_move toyLib true 60 stD1 "g3" 5 "bob" "a1a2").1.db_moves.length = 2 ∧
    (handle_move toyLib true 60 stD1 "g3" 5 "bob" "a1a2").2.all
      (fun e => match e with
        | WsEvent.errorMsg _ _ => false
        | _ => true) = true := by
  decide

/-- C7 amended: a malformed notation is answered with an error event of type
    "error" carrying a message string and leaves the state unchanged, while a
    parseable move that fails the legality check is silently dropped — no
    event of any kind is sent — also leaving the state unchanged. -/
theorem C7_main {Pos Mv : Type} (lib : ChessLib Pos Mv) (commitOk : Bool) (now : Nat)
    (st : ServerState Pos) (gid : String) (ws : Nat) (submitter : String)
    (game : Game) (uciBad uciIll : String) (mv : Mv) (b : Pos)
    (hg : st.db_games.find? (fun g => g.id == gid) = some game)
    (hbad : lib.fromUci uciBad = none)
    (hpi : lib.fromUci uciIll = some mv)
    (hb : st.game_boards.lookup gid = some b)
    (hill : lib.isLegal b mv = false) :
    handle_move lib commitOk now st gid ws submitter uciBad =
      (st, [WsEvent.errorMsg ws "invalid uci"]) ∧
    handle_move lib commitOk now st gid ws submitter uciIll = (st, []) := by
  have hcb := get_game_board_cached lib st gid b hb
  constructor
  · simp [handle_move, hg, hbad]
  · simp [handle_move, hg, hpi, hcb, hill]

/-- Closed instance of C7_main on stA: the unparseable zzzz and the
    parseable-but-illegal e2e5. -/
theorem C7_witness :
    (stA.db_games.find? (fun g => g.id == "g1") = some gameA ∧
     toyLib.fromUci "zzzz" = none ∧
     toyLib.fromUci "e2e5" = some "e2e5" ∧
     stA.game_boards.lookup "g1" = some ToyPos.start ∧
     toyLib.isLegal ToyPos.start "e2e5" = false) ∧
    (handle_move toyLib true 100 stA "g1" 5 "alice" "zzzz" =
      (stA, [WsEvent.errorMsg 5 "invalid uci"]) ∧
     handle_move toyLib true 100 stA "g1" 5 "alice" "e2e5" = (stA, [])) :=
  ⟨⟨by decide, by decide, by decide, by decide, by decide⟩,
   C7_main toyLib true 100 stA "g1" 5 "alice" gameA "zzzz" "e2e5" "e2e5" ToyPos.start
     (by decide) (by decide) (by decide) (by decide) (by decide)⟩

/-- C3 amended: when the durable commit fails on an otherwise accepted move,
    nothing is persisted (move log and game row unchanged) and the submitter
    receives a transient error, but the in-memory board has already been
    pushed and the turn flipped, so memory and store diverge instead of the
    move being rejected with no effect. -/
theorem C3_main {Pos Mv : Type} (lib : ChessLib Pos Mv) (now : Nat)
    (st : ServerState Pos) (gid : String) (ws : Nat) (submitter uci : String)
    (game : Game) (mv : Mv) (b : Pos) (t : String)
    (hg : st.db_games.find? (fun g => g.id == gid) = some game)
    (hp : lib.fromUci uci = some mv)
    (hb : st.game_boards.lookup gid = some b)
    (hl : lib.isLegal b mv = true)
    (ht : st.game_turns.lookup gid = some t) :
    (handle_move lib false now st gid ws submitter uci).1.db_moves = st.db_moves ∧
    (handle_move lib false now st gid ws submitter uci).1.db_games = st.db_games ∧
    (handle_move lib false now st gid ws submitter uci).1.game_boards.lookup gid =
      some (lib.push b mv) ∧
    (handle_move lib false now st gid ws submitter uci).1.game_turns.lookup gid =
      some (if t == "white" then "black" else "white") ∧
    (handle_move lib false now st gid ws submitter uci).2 =
      [WsEvent.errorMsg ws "StoreUnavailable"] := by
  have hcb := get_game_board_cached lib st gid b hb
  simp [handle_move, hg, hp, hcb, hl, ht, lookup_setAssoc_self]

/-- Closed instance of C3_main on stA with a failing commit. -/
theorem C3_witness :
    (stA.db_games.find? (fun g => g.id == "g1") = some gameA ∧
     toyLib.fromUci "e2e4" = some "e2e4" ∧
     stA.game_boards.lookup "g1" = some ToyPos.start ∧
     toyLib.isLegal ToyPos.start "e2e4" = true ∧
     stA.game_turns.lookup "g1" = some "white") ∧
    ((handle_move toyLib false 100 stA "g1" 5 "alice" "e2e4").1.db_moves =
      stA.db_moves ∧
     (handle_move toyLib false 100 stA "g1" 5 "alice" "e2e4").1.db_games =
      stA.db_games ∧
     (handle_move toyLib false 100 stA "g1" 5 "alice" "e2e4").1.game_boards.lookup "g1" =
      some (toyLib.push ToyPos.start "e2e4") ∧
     (handle_move toyLib false 100 stA "g1" 5 "alice" "e2e4").1.game_turns.lookup "g1" =
      some (if ("white" : String) == "white" then "black" else "white") ∧
     (handle_move toyLib false 100 stA "g1" 5 "alice" "e2e4").2 =
      [WsEvent.errorMsg 5 "StoreUnavailable"]) :=
  ⟨⟨by decide, by decide, by decide, by decide, by decide⟩,
   C3_main toyLib 100 stA "g1" 5 "alice" "e2e4" gameA "e2e4" ToyPos.start "white"
     (by decide) (by decide) (by decide) (by decide) (by decide)⟩

/-- C2 amended: the handler never consults game.status, so a move submitted
    to a Completed game that still parses and is legal on the in-memory
    board (the situation after an insufficient-material draw) is accepted:
    the move log grows, the board advances, and a broadcast fires; no
    InvalidState error exists in the code. -/
theorem C2_main {Pos Mv : Type} (lib : ChessLib Pos Mv) (now : Nat)
    (st : ServerState Pos) (gid : String) (ws : Nat) (submitter uci : String)
    (game : Game) (mv : Mv) (b : Pos) (t : String)
    (hg : st.db_games.find? (fun g => g.id == gid) = some game)
    (hstatus : game.status = "completed")
    (hp : lib.fromUci uci = some mv)
    (hb : st.game_boards.lookup gid = some b)
    (hl : lib.isLegal b mv = true)
    (ht : st.game_turns.lookup gid = some t) :
    moveAccepted (handle_move lib true now st gid ws submitter uci) = true ∧
    (handle_move lib true now st gid ws submitter uci).1.db_moves.length =
      st.db_moves.length + 1 ∧
    (handle_move lib true now st gid ws submitter uci).1.game_boards.lookup gid =
      some (lib.push b mv) := by
  have hcb := get_game_board_cached lib st gid b hb
  simp [handle_move, hg, hp, hcb, hl, ht, lookup_setAssoc_self, moveAccepted]

/-- Closed instance of C2_main on the draw-completed state stD1. -/
theorem C2_witness :
    (stD1.db_games.find? (fun g => g.id == "g3") = some gameD1 ∧
     gameD1.status = "completed" ∧
     toyLib.fromUci "a1a2" = some "a1a2" ∧
     stD1.game_boards.lookup "g3" = some ToyPos.drawPos ∧
     toyLib.isLegal ToyPos.drawPos "a1a2" = true ∧
     stD1.game_turns.lookup "g3" = some "black") ∧
    (moveAccepted (handle_move toyLib true 60 stD1 "g3" 5 "bob" "a1a2") = true ∧
     (handle_move toyLib true 60 stD1 "g3" 5 "bob" "a1a2").1.db_moves.length =
       stD1.db_moves.length + 1 ∧
     (handle_move toyLib true 60 stD1 "g3" 5 "bob" "a1a2").1.game_boards.lookup "g3" =
       some (toyLib.push ToyPos.drawPos "a1a2")) :=
  ⟨⟨by decide, by decide, by decide, by decide, by decide, by decide⟩,
   C2_main toyLib 60 stD1 "g3" 5 "bob" "a1a2" gameD1 "a1a2" ToyPos.drawPos "black"
     (by decide) (by decide) (by decide) (by decide) (by decide) (by decide)⟩

/-- Updating the row found by an id search leaves it the row the same search
    finds, provided the update preserves the id. -/
theorem find?_map_update (l : List Game) (k : String) (g g' : Game)
    (h : l.find? (fun x => x.id == k) = some g) (hid : g'.id = g.id) :
    (l.map (fun x => if x.id == g.id then g' else x)).find? (fun x => x.id == k) =
      some g' := by
  induction l with
  | nil => simp at h
  | cons hd tl ih =>
    by_cases hh : (hd.id == k) = true
    · rw [@List.find?_cons_of_pos Game (fun x => x.id == k) hd tl hh] at h
      have hhd : hd = g := by injection h
      subst hhd
      have h1 : (hd.id == hd.id) = true := by simp
      have h2 : (g'.id == k) = true := by rw [hid]; exact hh
      simp only [List.map_cons, h1, if_true]
      exact @List.find?_cons_of_pos Game (fun x => x.id == k) g'
        (tl.map (fun x => if x.id == hd.id then g' else x)) h2
    · rw [@List.find?_cons_of_neg Game (fun x => x.id == k) hd tl hh] at h
      have hgk : (g.id == k) = true := by
        have := List.find?_some h
        simpa using this
      have hne : (hd.id == g.id) = false := by
        rw [beq_iff_eq.mp hgk]
        exact (Bool.not_eq_true _).mp hh
      simp only [List.map_cons, hne, Bool.false_eq_true, if_false]
      rw [@List.find?_cons_of_neg Game (fun x => x.id == k) hd
        (tl.map (fun x => if x.id == g.id then g' else x)) hh]
      exact ih h

/-- C5 amended: a move whose resulting position is checkmate completes the
    game with result checkmate and a completion timestamp, but the recorded
    winner is the first player of the game's player list whose user row
    exists (the creator in normal flows) — the endpoint never identifies the
    actual mover, so the winner is not in general the player who made the
    final move. -/
theorem C5_main {Pos Mv : Type} (lib : ChessLib Pos Mv) (now : Nat)
    (st : ServerState Pos) (gid : String) (ws : Nat) (submitter uci : String)
    (game : Game) (mv : Mv) (b : Pos) (t : String)
    (hg : st.db_games.find? (fun g => g.id == gid) = some game)
    (hp : lib.fromUci uci = some mv)
    (hb : st.game_boards.lookup gid = some b)
    (hl : lib.isLegal b mv = true)
    (ht : st.game_turns.lookup gid = some t)
    (hcm : lib.isCheckmate (lib.push b mv) = true) :
    (handle_move lib true now st gid ws submitter uci).1.db_games.find?
      (fun g => g.id == gid) =
      some { game with
        status := "completed"
        result := some "checkmate"
        winner_id := (firstPlayerUser st game).map (fun u => u.id)
        completed_at := some now } := by
  have hcb := get_game_board_cached lib st gid b hb
  simp only [handle_move, hg, hp, hcb, hl, ht, hcm, if_true]
  exact find?_map_update st.db_games gid game _ hg rfl

/-- Closed instance of C5_main on stM: bob mates, alice is recorded. -/
theorem C5_witness :
    (stM.db_games.find? (fun g => g.id == "g2") = some gameM ∧
     toyLib.fromUci "d8h4" = some "d8h4" ∧
     stM.game_boards.lookup "g2" = some ToyPos.preMate ∧
     toyLib.isLegal ToyPos.preMate "d8h4" = true ∧
     stM.game_turns.lookup "g2" = some "black" ∧
     toyLib.isCheckmate (toyLib.push ToyPos.preMate "d8h4") = true) ∧
    (handle_move toyLib true 100 stM "g2" 5 "bob" "d8h4").1.db_games.find?
      (fun g => g.id == "g2") =
      some { gameM with
        status := "completed"
        result := some "checkmate"
        winner_id := (firstPlayerUser stM gameM).map (fun u => u.id)
        completed_at := some 100 } :=
  ⟨⟨by decide, by decide, by decide, by decide, by decide, by decide⟩,
   C5_main toyLib 100 stM "g2" 5 "bob" "d8h4" gameM "d8h4" ToyPos.preMate "black"
     (by decide) (by decide) (by decide) (by decide) (by decide) (by decide)⟩

/-- C1 amended: the outcome of a move submission is entirely independent of
    the submitting user — the endpoint never learns which user is behind the
    socket — and a move is accepted exactly when the game exists, the
    notation parses, the move is legal on the in-memory board (which is what
    confines it to the side to move), the turn entry exists, and the commit
    succeeds; no NotYourTurn check or error exists, so the opposite player
    or a non-participant can submit the side-to-move's move. -/
theorem C1_main {Pos Mv : Type} (lib : ChessLib Pos Mv) (commitOk : Bool) (now : Nat)
    (st : ServerState Pos) (gid : String) (ws : Nat) (submitter submitter' uci : String) :
    handle_move lib commitOk now st gid ws submitter uci =
      handle_move lib commitOk now st gid ws submitter' uci ∧
    (moveAccepted (handle_move lib commitOk now st gid ws submitter uci) = true ↔
      ((st.db_games.find? (fun g => g.id == gid)).isSome = true ∧
       (lib.fromUci uci).any (fun mv => lib.isLegal (boardVal lib st gid) mv) = true ∧
       (st.game_turns.lookup gid).isSome = true ∧
       commitOk = true)) := by
  refine ⟨rfl, ?_⟩
  have hbv := get_game_board_fst lib st gid
  have hsnd := (get_game_board_snd lib st gid).2.2.2.2.1
  rcases hg : st.db_games.find? (fun g => g.id == gid) with _ | game
  · simp [handle_move, hg, moveAccepted]
  · rcases hp : lib.fromUci uci with _ | mv
    · simp [handle_move, hg, hp, moveAccepted]
    · cases hl : lib.isLegal (boardVal lib st gid) mv with
      | false => simp [handle_move, hg, hp, hbv, hl, moveAccepted, Option.any]
      | true =>
        rcases ht : st.game_turns.lookup gid with _ | t
        · simp [handle_move, hg, hp, hbv, hl, ht, hsnd, moveAccepted, Option.any]
        · cases commitOk
          · simp [handle_move, hg, hp, hbv, hl, ht, hsnd, moveAccepted, Option.any]
          · simp [handle_move, hg, hp, hbv, hl, ht, hsnd, moveAccepted, Option.any]

/-- Delivery with per-connection exception swallowing reaches exactly the
    live connections. -/
theorem deliverAll_eq_filter (alive : Nat → Bool) (l : List Nat) :
    deliverAll alive l = l.filter alive := by
  induction l with
  | nil => rfl
  | cons c rest ih =>
    cases h : alive c <;> simp [deliverAll, h, ih, List.filter_cons]

/-- The presence sweep delivers to exactly the live connections of the
    copied list, whatever the live list is. -/
theorem presence_sweep_fst (alive : Nat → Bool) (copy : List Nat) :
    ∀ cur, (presence_sweep alive copy cur).1 = copy.filter alive := by
  induction copy with
  | nil => intro cur; rfl
  | cons c rest ih =>
    intro cur
    cases h : alive c <;> simp [presence_sweep, h, ih, List.filter_cons]

/-- The presence sweep only ever shrinks the live list. -/
theorem presence_sweep_snd_subset (alive : Nat → Bool) (copy : List Nat) :
    ∀ cur, (presence_sweep alive copy cur).2 ⊆ cur := by
  induction copy with
  | nil => intro cur x hx; exact hx
  | cons c rest ih =>
    intro cur
    cases h : alive c
    · simp only [presence_sweep, h, Bool.false_eq_true, if_false]
      exact fun x hx => List.erase_subset c cur (ih (cur.erase c) hx)
    · simp only [presence_sweep, h, if_true]
      exact ih cur

/-- A dead connection appearing in the copied list is absent from the final
    live list, provided the live list has no duplicates. -/
theorem presence_sweep_not_mem (alive : Nat → Bool) (c : Nat) (hdead : alive c = false) :
    ∀ copy cur, cur.Nodup → c ∈ copy → c ∉ (presence_sweep alive copy cur).2 := by
  intro copy
  induction copy with
  | nil => intro cur _ hmem; cases hmem
  | cons d rest ih =>
    intro cur hnd hmem
    cases hd : alive d
    · by_cases hcd : c = d
      · subst hcd
        simp only [presence_sweep, hd, Bool.false_eq_true, if_false]
        intro hin
        have hsub := presence_sweep_snd_subset alive rest (cur.erase c) hin
        exact ((List.Nodup.mem_erase_iff hnd).mp hsub).1 rfl
      · have hcr : c ∈ rest := by
          rcases List.mem_cons.mp hmem with h | h
          · exact absurd h hcd
          · exact h
        simp only [presence_sweep, hd, Bool.false_eq_true, if_false]
        exact ih (cur.erase d) (List.Nodup.erase d hnd) hcr
    · have hcr : c ∈ rest := by
        rcases List.mem_cons.mp hmem with h | h
        · subst h; rw [hdead] at hd; cases hd
        · exact h
      simp only [presence_sweep, hd, if_true]
      exact ih cur hnd hcr

/-- C8 amended: for a game broadcast, a delivery failure to one subscriber
    does not abort delivery to the others (every live subscriber receives
    the event) but the failing connection is NOT removed from the game's
    subscription set — the state is returned untouched; only the global
    presence channel removes a failed connection from its list during a
    broadcast. -/
theorem C8_main {Pos : Type} (alive : Nat → Bool) (st : ServerState Pos)
    (gid : String) (conns pconns : List Nat) (c : Nat)
    (hc : st.connections.lookup gid = some conns)
    (hnd : pconns.Nodup) (hmem : c ∈ pconns) (hdead : alive c = false) :
    (broadcast_to_game alive st gid).1 = conns.filter alive ∧
    (broadcast_to_game alive st gid).2 = st ∧
    (broadcast_online_users alive pconns).1 = pconns.filter alive ∧
    c ∉ (broadcast_online_users alive pconns).2 := by
  refine ⟨?_, ?_, ?_, ?_⟩
  · simp [broadcast_to_game, hc, deliverAll_eq_filter]
  · simp [broadcast_to_game, hc]
  · simpa [broadcast_online_users] using presence_sweep_fst alive pconns pconns
  · simpa [broadcast_online_users] using
      presence_sweep_not_mem alive c hdead pconns pconns hnd hmem

/-- Closed instance of C8_main: in stA connection 0 is dead, connection 1
    live, and the presence list is the same pair. -/
theorem C8_witness :
    (stA.connections.lookup "g1" = some [0, 1] ∧
     ([0, 1] : List Nat).Nodup ∧ 0 ∈ ([0, 1] : List Nat) ∧
     (fun c => c != 0) 0 = false) ∧
    ((broadcast_to_game (fun c => c != 0) stA "g1").1 =
       ([0, 1] : List Nat).filter (fun c => c != 0) ∧
     (broadcast_to_game (fun c => c != 0) stA "g1").2 = stA ∧
     (broadcast_online_users (fun c => c != 0) [0, 1]).1 =
       ([0, 1] : List Nat).filter (fun c => c != 0) ∧
     0 ∉ (broadcast_online_users (fun c => c != 0) [0, 1]).2) :=
  ⟨⟨by decide, by decide, by decide, by decide⟩,
   C8_main (fun c => c != 0) stA "g1" [0, 1] [0, 1] 0
     (by decide) (by decide) (by decide) (by decide)⟩

/-- Deleting a key from a dict makes its lookup miss. -/
theorem lookup_filter_out {β : Type} (l : List (String × β)) (k : String) :
    (l.filter (fun e => !(e.1 == k))).lookup k = none := by
  induction l with
  | nil => rfl
  | cons hd tl ih =>
    obtain ⟨k', v'⟩ := hd
    by_cases h : (k' == k) = true
    · simp [List.filter_cons, h, ih]
    · have hne : (k == k') = false := by
        apply beq_eq_false_iff_ne.mpr
        intro hk
        exact h (by simp [hk])
      have hb : (k' == k) = false := (Bool.not_eq_true _).mp h
      simp [List.filter_cons, hb, List.lookup, hne, ih]

/-- An entry of a dict after assignment is the assigned pair or an old
    entry. -/
theorem mem_setAssoc {β : Type} (l : List (String × β)) (k : String) (v : β) :
    ∀ e ∈ setAssoc l k v, e = (k, v) ∨ e ∈ l := by
  induction l with
  | nil =>
    intro e he
    simp [setAssoc] at he
    left
    exact he
  | cons hd tl ih =>
    obtain ⟨k', v'⟩ := hd
    intro e he
    by_cases h : (k' == k) = true
    · simp only [setAssoc, h, if_true] at he
      rcases List.mem_cons.mp he with h1 | h1
      · left; exact h1
      · right; exact List.mem_cons_of_mem _ h1
    · simp only [setAssoc, h, if_false] at he
      rcases List.mem_cons.mp he with h1 | h1
      · right; rw [h1]; exact List.mem_cons_self _ _
      · rcases ih e h1 with h2 | h2
        · left; exact h2
        · right; exact List.mem_cons_of_mem _ h2

/-- Deactivating the first row with an id preserves the id column. -/
theorem deactivateFirst_map_id (l : List UserSession) (sid : String) :
    (deactivateFirst l sid).map (fun s => s.id) = l.map (fun s => s.id) := by
  induction l with
  | nil => rfl
  | cons hd rest ih =>
    by_cases h : (hd.id == sid) = true
    · simp [deactivateFirst, h]
    · simp [deactivateFirst, h, ih]

/-- Every row survives deactivation with its id and user intact. -/
theorem deactivateFirst_mem (sid : String) :
    ∀ (l : List UserSession) (s : UserSession), s ∈ l →
      ∃ s2 ∈ deactivateFirst l sid, s2.id = s.id ∧ s2.user_id = s.user_id := by
  intro l
  induction l with
  | nil => intro s hs; cases hs
  | cons hd rest ih =>
    intro s hs
    by_cases h : (hd.id == sid) = true
    · simp only [deactivateFirst, h, if_true]
      rcases List.mem_cons.mp hs with h1 | h1
      · subst h1
        exact ⟨{ s with is_active := false }, List.mem_cons_self _ _, rfl, rfl⟩
      · exact ⟨s, List.mem_cons_of_mem _ h1, rfl, rfl⟩
    · simp only [deactivateFirst, h, if_false]
      rcases List.mem_cons.mp hs with h1 | h1
      · subst h1
        exact ⟨s, List.mem_cons_self _ _, rfl, rfl⟩
      · obtain ⟨s2, hmem, hid, huid⟩ := ih s h1
        exact ⟨s2, List.mem_cons_of_mem _ hmem, hid, huid⟩

/-- With unique session ids, after deactivation every row bearing the
    removed id is inactive. -/
theorem deactivateFirst_inactive (sid : String) :
    ∀ (l : List UserSession), (l.map (fun s => s.id)).Nodup →
      ∀ s ∈ deactivateFirst l sid, s.id = sid → s.is_active = false := by
  intro l
  induction l with
  | nil => intro _ s hs; cases hs
  | cons hd rest ih =>
    intro hnd s hs hsid
    have hnd2 : (hd.id :: rest.map (fun s => s.id)).Nodup := by simpa using hnd
    have hhdrest := (List.nodup_cons.mp hnd2).1
    have hndrest := (List.nodup_cons.mp hnd2).2
    by_cases h : (hd.id == sid) = true
    · simp only [deactivateFirst, h, if_true] at hs
      rcases List.mem_cons.mp hs with h1 | h1
      · rw [h1]
      · exfalso
        apply hhdrest
        rw [beq_iff_eq.mp h, ← hsid]
        exact List.mem_map_of_mem _ h1
    · simp only [deactivateFirst, h, if_false] at hs
      rcases List.mem_cons.mp hs with h1 | h1
      · exfalso
        rw [h1] at hsid
        exact h (beq_iff_eq.mpr hsid)
      · exact ih hndrest s h1 hsid

/-- After an explicit revoke, resolving the same token misses the cache and
    finds no active durable row, hence returns no identity. -/
theorem resolve_after_remove (st : SessState) (sid : String) (now : Nat)
    (hnd : (st.db_sessions.map (fun s => s.id)).Nodup) :
    (get_user_from_session (remove_session st sid) sid now).1 = none := by
  have hcache : (remove_session st sid).cache.lookup sid = none := by
    simp only [remove_session]
    exact lookup_filter_out st.cache sid
  have hfind : (remove_session st sid).db_sessions.find?
      (fun s => sessionQueryValid s sid now) = none := by
    simp only [remove_session]
    apply List.find?_eq_none.mpr
    intro s hs hq
    simp only [sessionQueryValid, Bool.and_eq_true, beq_iff_eq,
      decide_eq_true_eq] at hq
    have hinact := deactivateFirst_inactive sid st.db_sessions hnd s hs hq.1.1
    rw [hinact] at hq
    exact Bool.false_ne_true hq.1.2
  simp [get_user_from_session, hcache, hfind]

/-- The session invariant holds initially and is preserved by every
    operation. -/
theorem sessInv_step (st : SessState) (op : SessOp) (h : SessInv st) :
    SessInv (sessStep st op) := by
  obtain ⟨hnd, hsub⟩ := h
  cases op with
  | issueOp sid uid now =>
    simp only [sessStep, create_session]
    rcases hf : st.db_sessions.find? (fun s => s.id == sid) with _ | s0
    · simp only [hf, Option.isSome_none, Bool.false_eq_true, if_false]
      have hfresh : ∀ s ∈ st.db_sessions, s.id ≠ sid := by
        intro s hs hsid
        have := List.find?_eq_none.mp hf s hs
        exact this (beq_iff_eq.mpr hsid)
      constructor
      · rw [List.map_append]
        rw [List.nodup_append]
        refine ⟨hnd, by simp, ?_⟩
        intro a ha hb
        simp at hb
        obtain ⟨s, hs, hsa⟩ := List.mem_map.mp ha
        exact hfresh s hs (hsa.trans hb)
      · intro e he
        rcases mem_setAssoc st.cache sid uid e he with h1 | h1
        · refine ⟨(⟨sid, uid, now, now + sessionLifetime, true⟩ : UserSession),
            List.mem_append_right _ (List.mem_cons_self _ _), ?_, ?_⟩
          · rw [h1]
          · rw [h1]
        · obtain ⟨s, hs, hid, huid⟩ := hsub e h1
          exact ⟨s, List.mem_append_left _ hs, hid, huid⟩
    · simp only [hf]
      simp only [Option.isSome_some, if_true]
      exact ⟨hnd, hsub⟩
  | resolveOp sid now =>
    simp only [sessStep, get_user_from_session]
    rcases hc : st.cache.lookup sid with _ | uid
    · rcases hq : st.db_sessions.find? (fun s => sessionQueryValid s sid now) with _ | s
      · exact ⟨hnd, hsub⟩
      · refine ⟨hnd, ?_⟩
        intro e he
        rcases mem_setAssoc st.cache sid s.user_id e he with h1 | h1
        · refine ⟨s, List.mem_of_find?_eq_some hq, ?_, ?_⟩
          · have := List.find?_some hq
            simp only [sessionQueryValid, Bool.and_eq_true, beq_iff_eq,
              decide_eq_true_eq] at this
            rw [h1]
            exact this.1.1.symm ▸ rfl
          · rw [h1]
        · exact hsub e h1
    · exact ⟨hnd, hsub⟩
  | revokeOp sid =>
    simp only [sessStep, remove_session]
    constructor
    · rw [deactivateFirst_map_id]
      exact hnd
    · intro e he
      have h1 : e ∈ st.cache := List.mem_of_mem_filter he
      obtain ⟨s, hs, hid, huid⟩ := hsub e h1
      obtain ⟨s2, hs2, hid2, huid2⟩ := deactivateFirst_mem sid st.db_sessions s hs
      exact ⟨s2, hs2, hid2.trans hid, huid2.trans huid⟩

/-- The invariant after any operation sequence from the empty state. -/
theorem sessInv_run (ops : List SessOp) : SessInv (runSessOps ops) := by
  have hinit : SessInv { db_sessions := [], cache := [] } := by
    constructor
    · simp
    · intro e he; cases he
  suffices h : ∀ st, SessInv st → SessInv (ops.foldl sessStep st) by
    exact h _ hinit
  induction ops with
  | nil => intro st h; exact h
  | cons op rest ih =>
    intro st h
    exact ih _ (sessInv_step st op h)

/-- C9 amended: after any sequence of issue, resolve and revoke operations,
    every cache entry mirrors a durable row with the same token and user
    (but not necessarily a currently-valid one — resolve trusts the cache
    without re-checking expiry, as the counterexample shows), and an
    explicitly revoked token resolves to no identity at any later instant
    because both the cache entry and the durable row's active flag are
    cleared. -/
theorem C9_main (ops : List SessOp) (sid : String) (now : Nat) :
    SessInv (runSessOps ops) ∧
    (get_user_from_session (remove_session (runSessOps ops) sid) sid now).1 = none := by
  have h := sessInv_run ops
  exact ⟨h, resolve_after_remove _ sid now h.1⟩

/-- Filtering a one-element append splits into the old filter plus the new
    row when it matches. -/
theorem filter_game_append (l : List GamePlayer) (p : GamePlayer) (gid : String) :
    (l ++ [p]).filter (fun q => q.game_id == gid) =
      l.filter (fun q => q.game_id == gid) ++
        (if (p.game_id == gid) = true then [p] else []) := by
  rw [List.filter_append]
  congr 1
  by_cases h : (p.game_id == gid) = true <;> simp [List.filter_cons, h]

/-- Game creation preserves the registry invariant when the requested color
    is one of the two chess colors. -/
theorem regInv_create {Pos Mv : Type} (lib : ChessLib Pos Mv) (st : ServerState Pos)
    (gid cid col : String) (hcol : col = "white" ∨ col = "black")
    (h : RegInv st) : RegInv (create_game lib st gid cid col) := by
  obtain ⟨hnd, horph, hgames⟩ := h
  rcases hf : st.db_games.find? (fun g => g.id == gid) with _ | g0
  case some =>
    simp only [create_game, hf, Option.isSome_some, if_true]
    exact ⟨hnd, horph, hgames⟩
  case none =>
    simp only [create_game, hf, Option.isSome_none, Bool.false_eq_true, if_false]
    have hfresh : ∀ g ∈ st.db_games, g.id ≠ gid := fun g hg hgid =>
      (List.find?_eq_none.mp hf g hg) (beq_iff_eq.mpr hgid)
    refine ⟨?_, ?_, ?_⟩
    · rw [List.map_append, List.nodup_append]
      refine ⟨hnd, by simp, ?_⟩
      intro a ha hb
      simp at hb
      obtain ⟨g, hg, hga⟩ := List.mem_map.mp ha
      exact hfresh g hg (hga.trans hb)
    · intro p hp
      rcases List.mem_append.mp hp with h1 | h1
      · obtain ⟨g, hg, hgid2⟩ := horph p h1
        exact ⟨g, List.mem_append_left _ hg, hgid2⟩
      · simp at h1
        refine ⟨(⟨gid, cid, none, col, "waiting", none, none, none⟩ : Game),
          List.mem_append_right _ (List.mem_cons_self _ _), ?_⟩
        rw [h1]
    · intro g' hg'
      rcases List.mem_append.mp hg' with h1 | h1
      · refine ⟨(hgames g' h1).1, ?_⟩
        have hne : ((⟨gid, cid, col⟩ : GamePlayer).game_id == g'.id) = false := by
          apply beq_eq_false_iff_ne.mpr
          intro hh
          exact hfresh g' h1 hh.symm
        have heq : playersOf { st with
            db_games := st.db_games ++
              [(⟨gid, cid, none, col, "waiting", none, none, none⟩ : Game)],
            db_players := st.db_players ++ [(⟨gid, cid, col⟩ : GamePlayer)],
            connections := setAssoc st.connections gid [],
            game_boards := setAssoc st.game_boards gid lib.init,
            game_turns := setAssoc st.game_turns gid "white" } g'.id =
            playersOf st g'.id := by
          simp only [playersOf]
          rw [filter_game_append, hne]
          simp
        rw [heq]
        exact (hgames g' h1).2
      · simp at h1
        subst h1
        refine ⟨hcol, Or.inl ?_⟩
        have hnil : st.db_players.filter (fun q => q.game_id == gid) = [] := by
          rw [List.filter_eq_nil_iff]
          intro p hp hpq
          obtain ⟨g, hg, hgid2⟩ := horph p hp
          exact hfresh g hg (hgid2.trans (beq_iff_eq.mp hpq))
        simp only [playersOf]
        rw [filter_game_append]
        simp [hnil]

/-- A page visit (with its auto-join) preserves the registry invariant. -/
theorem regInv_visit {Pos : Type} (st : ServerState Pos) (gid uid : String)
    (h : RegInv st) : RegInv (game_page_visit st gid uid) := by
  obtain ⟨hnd, horph, hgames⟩ := h
  rcases hf : st.db_games.find? (fun g => g.id == gid) with _ | g0
  case none =>
    simp only [game_page_visit, hf]
    exact ⟨hnd, horph, hgames⟩
  case some =>
    rcases hex : st.db_players.find? (fun p => p.game_id == gid && p.user_id == uid)
      with _ | pex
    case some =>
      simp only [game_page_visit, hf, hex, Option.isSome_some, if_true]
      exact ⟨hnd, horph, hgames⟩
    case none =>
      simp only [game_page_visit, hf, hex, Option.isSome_none, Bool.false_eq_true,
        if_false, join_game]
      have hg0mem : g0 ∈ st.db_games := List.mem_of_find?_eq_some hf
      have hg0id : g0.id = gid := by
        have h2 := List.find?_some hf
        simpa using h2
      have hnotp : ∀ p ∈ st.db_players, p.game_id = gid → p.user_id ≠ uid := by
        intro p hp h1 h2
        apply List.find?_eq_none.mp hex p hp
        simp [h1, h2]
      rcases (hgames g0 hg0mem).2 with hone | ⟨j, hj, htwo⟩
      · have hone2 : st.db_players.filter (fun p => p.game_id == gid) =
            [(⟨g0.id, g0.creator_id, g0.creator_color⟩ : GamePlayer)] := by
          have := hone
          simp only [playersOf] at this
          rw [← hg0id]
          exact this
        have hcount : (st.db_players.filter (fun p => p.game_id == gid)).length = 1 := by
          rw [hone2]; rfl
        rw [hcount]
        simp only [show ¬(2 ≤ 1) by norm_num, if_false]
        have hcmem : (⟨g0.id, g0.creator_id, g0.creator_color⟩ : GamePlayer) ∈
            st.db_players := by
          have : (⟨g0.id, g0.creator_id, g0.creator_color⟩ : GamePlayer) ∈
              st.db_players.filter (fun p => p.game_id == gid) := by
            rw [hone2]; exact List.mem_cons_self _ _
          exact List.mem_of_mem_filter this
        have hjoiner : uid ≠ g0.creator_id := by
          intro hh
          exact hnotp (⟨g0.id, g0.creator_id, g0.creator_color⟩ : GamePlayer) hcmem
            (by simpa using hg0id) (by simpa using hh.symm)
        have hids : ((st.db_games.map (fun g =>
            if g.id == gid then { g with status := "active", joiner_id := some uid }
            else g)).map (fun g => g.id)) = st.db_games.map (fun g => g.id) := by
          rw [List.map_map]
          apply List.map_congr_left
          intro g hg
          simp only [Function.comp_apply]
          by_cases hh : (g.id == gid) = true
          · rw [if_pos hh]
          · rw [if_neg hh]
        refine ⟨?_, ?_, ?_⟩
        · rw [hids]; exact hnd
        · intro p hp
          rcases List.mem_append.mp hp with h1 | h1
          · obtain ⟨g, hg, hgid2⟩ := horph p h1
            refine ⟨if g.id == gid then { g with status := "active", joiner_id := some uid } else g, List.mem_map_of_mem _ hg, ?_⟩
            by_cases hh : (g.id == gid) = true
            · rw [if_pos hh]; exact hgid2
            · rw [if_neg hh]; exact hgid2
          · simp at h1
            have hb : (g0.id == gid) = true := beq_iff_eq.mpr hg0id
            refine ⟨if g0.id == gid then { g0 with status := "active", joiner_id := some uid } else g0, List.mem_map_of_mem _ hg0mem, ?_⟩
            rw [h1, if_pos hb]
            exact hg0id
        · intro g' hg'
          obtain ⟨g, hg, hgeq⟩ := List.mem_map.mp hg'
          by_cases hh : (g.id == gid) = true
          · have hgg0 : g = g0 :=
              List.inj_on_of_nodup_map hnd hg hg0mem
                ((beq_iff_eq.mp hh).trans hg0id.symm)
            subst hgg0
            rw [if_pos hh] at hgeq
            subst hgeq
            refine ⟨(hgames g hg).1, Or.inr ⟨uid, ?_, ?_⟩⟩
            · intro hh2
              exact hjoiner hh2
            · simp only [playersOf]
              rw [filter_game_append]
              have hb1 : ((⟨gid, uid, if g.creator_color == "white" then "black"
                  else "white"⟩ : GamePlayer).game_id ==
                  ({ g with status := "active", joiner_id := some uid } : Game).id) =
                  true := by
                simp [beq_iff_eq.mp hh]
              rw [hb1]
              have hone3 : st.db_players.filter (fun p => p.game_id ==
                  ({ g with status := "active", joiner_id := some uid } : Game).id) =
                  [(⟨g.id, g.creator_id, g.creator_color⟩ : GamePlayer)] := by
                have := hone
                simp only [playersOf] at this
                exact this
              rw [hone3]
              simp [oppColor]
              exact hg0id.symm
          · rw [if_neg hh] at hgeq
            subst hgeq
            refine ⟨(hgames g hg).1, ?_⟩
            have heq2 : (st.db_players ++ [(⟨gid, uid,
                if g0.creator_color == "white" then "black" else "white"⟩ :
                GamePlayer)]).filter (fun p => p.game_id == g.id) =
                st.db_players.filter (fun p => p.game_id == g.id) := by
              rw [filter_game_append]
              have hb2 : ((⟨gid, uid, if g0.creator_color == "white" then "black"
                  else "white"⟩ : GamePlayer).game_id == g.id) = false := by
                apply beq_eq_false_iff_ne.mpr
                intro hh2
                exact hh (beq_iff_eq.mpr hh2.symm)
              rw [hb2]
              simp
            have hps := (hgames g hg).2
            simp only [playersOf] at hps
            simp only [playersOf]
            rw [heq2]
            exact hps
      · have htwo2 : st.db_players.filter (fun p => p.game_id == gid) =
            [(⟨g0.id, g0.creator_id, g0.creator_color⟩ : GamePlayer),
             (⟨g0.id, j, oppColor g0.creator_color⟩ : GamePlayer)] := by
          have := htwo
          simp only [playersOf] at this
          rw [← hg0id]
          exact this
        have hcount : (st.db_players.filter (fun p => p.game_id == gid)).length = 2 := by
          rw [htwo2]; rfl
        rw [hcount]
        simp only [show (2 ≤ 2) from le_refl 2, if_true]
        exact ⟨hnd, horph, hgames⟩

/-- The registry invariant after any create/visit sequence from the empty
    state whose creations request a chess color. -/
theorem regInv_run {Pos Mv : Type} (lib : ChessLib Pos Mv) (ops : List RegOp)
    (hval : ∀ op ∈ ops, validColorOp op) : RegInv (runOps lib ops) := by
  have hinit : RegInv (initState Pos) := by
    refine ⟨by simp [initState], ?_, ?_⟩
    · intro p hp
      cases hp
    · intro g hg
      cases hg
  suffices h : ∀ (l : List RegOp) (st : ServerState Pos),
      (∀ op ∈ l, validColorOp op) → RegInv st → RegInv (l.foldl (stepOp lib) st) by
    exact h ops _ hval hinit
  intro l
  induction l with
  | nil =>
    intro st _ h
    exact h
  | cons op rest ih =>
    intro st hv h
    simp only [List.foldl_cons]
    apply ih
    · intro o ho
      exact hv o (List.mem_cons_of_mem _ ho)
    · cases op with
      | createOp gid cid col =>
        exact regInv_create lib st gid cid col (hv _ (List.mem_cons_self _ _)) h
      | visitOp gid uid =>
        exact regInv_visit st gid uid h

/-- C6: after any sequence of game creations and page visits (creations
    requesting one of the two chess colors), every game has at most two
    player slots, the occupying user identities are pairwise distinct (so a
    user — in particular the creator — occupies at most one slot per game),
    and once two slots are filled their colors are white and black in some
    order, i.e. opposite. -/
theorem C6_main {Pos Mv : Type} (lib : ChessLib Pos Mv) (ops : List RegOp)
    (hval : ∀ op ∈ ops, validColorOp op) (gid : String) :
    (playersOf (runOps lib ops) gid).length ≤ 2 ∧
    ((playersOf (runOps lib ops) gid).map (fun p => p.user_id)).Nodup ∧
    ((playersOf (runOps lib ops) gid).length = 2 →
      (playersOf (runOps lib ops) gid).map (fun p => p.color) = ["white", "black"] ∨
      (playersOf (runOps lib ops) gid).map (fun p => p.color) = ["black", "white"]) := by
  obtain ⟨hnd, horph, hgames⟩ := regInv_run lib ops hval
  by_cases hx : ∃ g ∈ (runOps lib ops).db_games, g.id = gid
  · obtain ⟨g, hg, hgid⟩ := hx
    obtain ⟨hcv, hps⟩ := hgames g hg
    rw [← hgid]
    rcases hps with hone | ⟨j, hj, htwo⟩
    · rw [hone]
      refine ⟨by norm_num, by simp, ?_⟩
      intro hlen
      simp at hlen
    · rw [htwo]
      refine ⟨by norm_num, ?_, ?_⟩
      · simp [hj.symm]
      · intro _
        rcases hcv with hw | hb
        · left
          simp [hw, oppColor]
        · right
          simp [hb, oppColor]
  · have hnil : playersOf (runOps lib ops) gid = [] := by
      simp only [playersOf]
      rw [List.filter_eq_nil_iff]
      intro p hp hpq
      obtain ⟨g, hg, hgid2⟩ := horph p hp
      exact hx ⟨g, hg, hgid2.trans (beq_iff_eq.mp hpq)⟩
    rw [hnil]
    refine ⟨by norm_num, by simp, ?_⟩
    intro hlen
    simp at hlen

/-- Closed instance of C6_main on the run where alice creates g1 as white
    and bob joins by visiting. -/
theorem C6_witness :
    (∀ op ∈ c6Ops, validColorOp op) ∧
    ((playersOf (runOps toyLib c6Ops) "g1").length ≤ 2 ∧
     ((playersOf (runOps toyLib c6Ops) "g1").map (fun p => p.user_id)).Nodup ∧
     ((playersOf (runOps toyLib c6Ops) "g1").length = 2 →
       (playersOf (runOps toyLib c6Ops) "g1").map (fun p => p.color) =
         ["white", "black"] ∨
       (playersOf (runOps toyLib c6Ops) "g1").map (fun p => p.color) =
         ["black", "white"])) := by
  have hval : ∀ op ∈ c6Ops, validColorOp op := by
    intro op hop
    rcases List.mem_cons.mp hop with h1 | h1
    · rw [h1]
      exact Or.inl rfl
    · rcases List.mem_cons.mp h1 with h2 | h2
      · rw [h2]
        trivial
      · cases h2
  exact ⟨hval, C6_main toyLib c6Ops hval "g1"⟩
